import Mathlib

/-!
# gc_n64_usb: controller identification, transaction layer, product string

A shallow embedding of `gcn64_protocol.c`, of `detectPad` from `main.c` and of
`usbstrings_changeProductString_P` from `usbstrings.c`, followed by the
properties established about them.

Conventions of the embedding.

* Bytes (`unsigned char`) are natural numbers; the places where the C code
  narrows a value (`unsigned char count = ...`, `unsigned short id`,
  `uint8_t c`) reduce it modulo `2^8` or `2^16` explicitly.
* Global variables (`gcn64_workbuf`, `SREG`, `current_pad_type`) are fields of
  `Machine`; every function takes the machine state and returns the new one.
* Calls that leave the translation unit (`gcn64_sendBytes`,
  `gcn64_receiveBytes`, `printf`, `_delay_us`) append an `Event` to the
  machine trace, in program order.  What the receive call answers is given by
  a `Transceiver`.
* An access outside an array is undefined behaviour in C and is `none` here.
-/

namespace GcN64

/-! ## Data model -/

/-- Modelled from the spec: the `CONTROLLER_IS_*` macros are declared in
`gcn64_protocol.h`, which is not among the sources.  The spec lists the five
classifications absent, unknown, N64, Gamecube and Gamecube-keyboard; they are
kept as five distinct values under the names the code uses. -/
inductive ControllerType
  | CONTROLLER_IS_ABSENT
  | CONTROLLER_IS_N64
  | CONTROLLER_IS_GC
  | CONTROLLER_IS_GC_KEYBOARD
  | CONTROLLER_IS_UNKNOWN
  deriving DecidableEq, Repr

open ControllerType

/-- Messages given to `printf`: `rx_error` is the text "rx error" of
`gcn64_transaction`, the other two are the "Detected N64 controller" and
"Detected GC controller" texts of `detectPad`. -/
inductive Message
  | rx_error
  | detected_n64
  | detected_gc
  deriving DecidableEq, Repr

/-- Calls leaving the translation unit, as they appear in the machine trace.
`sendBytes` and `receiveBytes` record whether the global interrupt flag was
set when the call was made. -/
inductive Event
  | sendBytes (data_out : List Nat) (data_out_len : Int) (interrupts : Bool)
  | receiveBytes (interrupts : Bool)
  | printf (msg : Message)
  | delay_us (us : Nat)
  deriving DecidableEq, Repr

/-- The global state touched by the embedded functions.  `SREG` is the AVR
status register as the C code sees it: it is read by `sreg = SREG`, written by
`cli()` and by `SREG = sreg`. -/
structure Machine where
  gcn64_workbuf : List Nat
  SREG : Nat
  current_pad_type : ControllerType
  trace : List Event
  deriving DecidableEq, Repr

/-- The bit-level transceiver of `gcn64txrx` together with whatever is plugged
on the line: given the bytes handed to `gcn64_sendBytes` and the receive
buffer, `gcn64_receiveBytes` yields the new buffer content and the value it
returns (a byte count, `0` on timeout, `0xFF` on error). -/
structure Transceiver where
  gcn64_receiveBytes : List Nat → Int → List Nat → List Nat × Nat

/-- The size of `gcn64_workbuf` (`#define GCN64_BUF_SIZE 40`). -/
def GCN64_BUF_SIZE : Nat := 40

/-- Modelled from the spec: `GC_GETID` is a macro of `gcn64_protocol.h`, which
is not among the sources.  It is the single-byte get-identity command; the
detection comment of the source names it the SI command 0x00. -/
def GC_GETID : Nat := 0x00

/-- Modelled from the spec: `GC_GETID_REPLY_LENGTH` is a macro of
`gcn64_protocol.h`, which is not among the sources.  The spec gives the
expected identity reply as 3 bytes. -/
def GC_GETID_REPLY_LENGTH : Nat := 3

/-- Bit 7 of `SREG`, the global interrupt enable flag. -/
def Machine.interruptsEnabled (m : Machine) : Bool :=
  m.SREG / 128 % 2 == 1

/-- The `cli()` instruction: clears bit 7 of the 8-bit `SREG`. -/
def cli (m : Machine) : Machine :=
  { m with SREG := m.SREG % 128 }

/-- Appends one event to the trace. -/
def Machine.emit (m : Machine) (e : Event) : Machine :=
  { m with trace := m.trace ++ [e] }

/-! ## gcn64_protocol.c -/

/-- `gcn64_protocol_getByte`: `gcn64_workbuf[offset/8]`, where the division of C
truncates toward zero. -/
def gcn64_protocol_getByte (m : Machine) (offset : Int) : Option Nat :=
  let idx := Int.tdiv offset 8
  if 0 ≤ idx ∧ idx < GCN64_BUF_SIZE then m.gcn64_workbuf[idx.toNat]? else none

/-- `gcn64_protocol_getBytes`: `memcpy(dstbuf, gcn64_workbuf + offset/8, n_bytes)`.
The result is the machine afterwards and the new content of `dstbuf`: its
first `n_bytes` elements are replaced.  Reading outside the 40-byte buffer,
writing outside `dstbuf` or a negative length is undefined. -/
def gcn64_protocol_getBytes (m : Machine) (offset n_bytes : Int) (dstbuf : List Nat) :
    Option (Machine × List Nat) :=
  let idx := Int.tdiv offset 8
  if 0 ≤ idx ∧ 0 ≤ n_bytes ∧ idx + n_bytes ≤ GCN64_BUF_SIZE
      ∧ idx.toNat + n_bytes.toNat ≤ m.gcn64_workbuf.length
      ∧ n_bytes.toNat ≤ dstbuf.length then
    some (m, (m.gcn64_workbuf.drop idx.toNat).take n_bytes.toNat ++ dstbuf.drop n_bytes.toNat)
  else none

/-- `gcn64_transaction`: send `data_out_len` bytes and a stop bit, wait for the
answer.  Returns the machine afterwards and the returned count. -/
def gcn64_transaction (hw : Transceiver) (m : Machine) (data_out : List Nat)
    (data_out_len : Int) : Machine × Nat :=
  let sreg := m.SREG
  let m := cli m
  let m := m.emit (Event.sendBytes data_out data_out_len m.interruptsEnabled)
  let rx := hw.gcn64_receiveBytes data_out data_out_len m.gcn64_workbuf
  let m := { m with gcn64_workbuf := rx.1 }.emit (Event.receiveBytes m.interruptsEnabled)
  let count := rx.2
  let m := { m with SREG := sreg }
  if count = 0 then
    (m, 0)
  else if count = 0xff then
    (m.emit (Event.printf Message.rx_error), 0)
  else
    let m := m.emit (Event.delay_us 80)
    (m, count)

/-- `gcn64_detectController`.  `count` is an `unsigned char`, `id` an
`unsigned short`; `FORCE_KEYBOARD` is undefined in the source. -/
def gcn64_detectController (hw : Transceiver) (m : Machine) :
    Option (Machine × ControllerType) :=
  let tmp := GC_GETID
  let r := gcn64_transaction hw m [tmp] 1
  let m := r.1
  let count := r.2 % 256
  if count = 0 then
    some (m, CONTROLLER_IS_ABSENT)
  else if count ≠ GC_GETID_REPLY_LENGTH then
    some (m, CONTROLLER_IS_UNKNOWN)
  else
    match gcn64_protocol_getByte m 0, gcn64_protocol_getByte m 8 with
    | some b0, some b1 =>
      let id := (b0 <<< 8) % 65536
      let id := (id ||| b1) % 65536
      let top := id >>> 8
      if top = 0x05 then
        some (m, CONTROLLER_IS_N64)
      else if top = 0x09 ∨ top = 0x0b then
        some (m, CONTROLLER_IS_GC)
      else if top = 0x08 then
        if id = 0x0820 then
          some (m, CONTROLLER_IS_GC_KEYBOARD)
        else
          some (m, CONTROLLER_IS_GC)
      else
        some (m, CONTROLLER_IS_UNKNOWN)
    | _, _ => none

/-! ## main.c -/

/-- The pointer returned by `detectPad`: `NULL`, or what `n64GetGamepad()` or
`gamecubeGetGamepad()` returned.  The two getters live in `n64.c` and
`gamecube.c`, outside the embedded sources, so their values stay symbolic. -/
inductive GamepadPtr
  | NULL
  | n64GetGamepad
  | gamecubeGetGamepad
  deriving DecidableEq, Repr

/-- `detectPad` of `main.c`: stores the classification in `current_pad_type`
and picks the driver. -/
def detectPad (hw : Transceiver) (m : Machine) : Option (Machine × GamepadPtr) :=
  match gcn64_detectController hw m with
  | none => none
  | some (m, t) =>
    let m := { m with current_pad_type := t }
    match m.current_pad_type with
    | CONTROLLER_IS_ABSENT => some (m, GamepadPtr.NULL)
    | CONTROLLER_IS_UNKNOWN => some (m, GamepadPtr.NULL)
    | CONTROLLER_IS_N64 =>
      some (m.emit (Event.printf Message.detected_n64), GamepadPtr.n64GetGamepad)
    | CONTROLLER_IS_GC =>
      some (m.emit (Event.printf Message.detected_gc), GamepadPtr.gamecubeGetGamepad)
    | _ => some (m, GamepadPtr.NULL)

/-! ## usbstrings.c -/

/-- The assignment `*d = v` into an array: undefined outside the array. -/
def storeAt (arr : List Nat) (d : Nat) (v : Nat) : Option (List Nat) :=
  if d < arr.length then some (arr.set d v) else none

/-- The `do ... while (c)` loop of `usbstrings_changeProductString_P`, one
iteration per unit of `fuel`.  `maxchars` is `PRODUCT_STRING_MAXCHARS` (a macro
of `usbstrings.h`, not among the sources), `str` the bytes of program memory
from the argument pointer on, `n`, `s`, `d` the loop variables (`s` and `d` as
offsets from `str` and `product_string`). -/
def changeProductString_loop (maxchars : Nat) (str : List Nat) :
    Nat → Nat → Nat → Nat → List Nat → Option (List Nat)
  | 0, _, _, _, _ => none
  | fuel + 1, n, s, d, product_string =>
    let n := n + 1
    if n = maxchars then
      storeAt product_string d 0
    else
      match str[s]? with
      | none => none
      | some b =>
        let c := b % 256
        match storeAt product_string d c with
        | none => none
        | some product_string =>
          if c ≠ 0 then
            changeProductString_loop maxchars str fuel n (s + 1) (d + 1) product_string
          else
            some product_string

/-- `usbstrings_changeProductString_P`: the new content of `product_string`.
The loop leaves at the latest when `n` reaches `PRODUCT_STRING_MAXCHARS`, so
`maxchars` iterations are enough.  `n` is an `int`; it never exceeds the number
of elements of `product_string`, an object of the program, so it cannot
overflow and is a natural number here. -/
def usbstrings_changeProductString_P (maxchars : Nat) (str : List Nat)
    (product_string : List Nat) : Option (List Nat) :=
  changeProductString_loop maxchars str maxchars 0 0 0 product_string

/-! ## The classification of the spec and concrete test inputs -/

/-- The classification as the spec words it, a function of the 16-bit
identifier alone: top byte `0x05` is N64, `0x09` or `0x0B` Gamecube, `0x0820`
exactly the keyboard, any other `0x08xx` Gamecube, everything else unknown.
This definition follows the spec, not the code, and is compared with
`gcn64_detectController` below. -/
def spec_classification (id : Nat) : ControllerType :=
  if id / 256 = 0x05 then CONTROLLER_IS_N64
  else if id / 256 = 0x09 ∨ id / 256 = 0x0B then CONTROLLER_IS_GC
  else if id = 0x0820 then CONTROLLER_IS_GC_KEYBOARD
  else if id / 256 = 0x08 then CONTROLLER_IS_GC
  else CONTROLLER_IS_UNKNOWN

/-- A transceiver whose receive call always stores `reply` as the buffer
content and returns `count`. -/
def fixedReply (reply : List Nat) (count : Nat) : Transceiver :=
  ⟨fun _ _ _ => (reply, count)⟩

/-- A machine with interrupts enabled, an empty trace and the given buffer. -/
def machineWith (buf : List Nat) : Machine :=
  ⟨buf, 0x80, CONTROLLER_IS_ABSENT, []⟩

/-- A 40-byte buffer starting with the three given bytes, the rest zero. -/
def buf3 (b0 b1 b2 : Nat) : List Nat :=
  b0 :: b1 :: b2 :: List.replicate 37 0

end GcN64

/-! ## Properties -/

namespace GcN64
open ControllerType

/-! ### Helper lemmas -/

theorem transaction_count (hw : Transceiver) (m : Machine) (data_out : List Nat)
    (data_out_len : Int) :
    (gcn64_transaction hw m data_out data_out_len).2 =
      if (hw.gcn64_receiveBytes data_out data_out_len m.gcn64_workbuf).2 = 0
          ∨ (hw.gcn64_receiveBytes data_out data_out_len m.gcn64_workbuf).2 = 0xFF
      then 0
      else (hw.gcn64_receiveBytes data_out data_out_len m.gcn64_workbuf).2 := by
  simp only [gcn64_transaction, cli, Machine.emit]
  split_ifs <;> simp_all

theorem getByte_first_two (m : Machine) (b0 b1 : Nat) (rest : List Nat)
    (h : m.gcn64_workbuf = b0 :: b1 :: rest) :
    gcn64_protocol_getByte m 0 = some b0 ∧ gcn64_protocol_getByte m 8 = some b1 := by
  simp [gcn64_protocol_getByte, GCN64_BUF_SIZE, h]

theorem id_bytes (b0 b1 : Nat) (h0 : b0 < 256) (h1 : b1 < 256) :
    (((b0 <<< 8) % 65536) ||| b1) % 65536 = b0 * 256 + b1 := by
  rw [Nat.shiftLeft_eq]
  have h : b0 * 2 ^ 8 % 65536 = 2 ^ 8 * b0 := by omega
  rw [h, ← Nat.mul_add_lt_is_or (by omega)]
  omega

theorem detect_of_reply (hw : Transceiver) (m : Machine) (b0 b1 : Nat) (rest : List Nat)
    (hb0 : b0 < 256) (hb1 : b1 < 256)
    (hcount : (gcn64_transaction hw m [GC_GETID] 1).2 = GC_GETID_REPLY_LENGTH)
    (hbuf : (gcn64_transaction hw m [GC_GETID] 1).1.gcn64_workbuf = b0 :: b1 :: rest) :
    gcn64_detectController hw m =
      some ((gcn64_transaction hw m [GC_GETID] 1).1, spec_classification (b0 * 256 + b1)) := by
  obtain ⟨g0, g8⟩ := getByte_first_two _ b0 b1 rest hbuf
  have hid := id_bytes b0 b1 hb0 hb1
  have htop : (b0 * 256 + b1) >>> 8 = b0 := by
    rw [Nat.shiftRight_eq_div_pow]; omega
  have hdiv : (b0 * 256 + b1) / 256 = b0 := by omega
  simp only [gcn64_detectController, hcount, g0, g8, hid, htop, spec_classification, hdiv,
    GC_GETID_REPLY_LENGTH]
  norm_num
  split_ifs <;> first | rfl | omega

theorem transaction_trace (hw : Transceiver) (m : Machine) (data_out : List Nat)
    (data_out_len : Int) :
    (gcn64_transaction hw m data_out data_out_len).1.trace =
      m.trace ++ [Event.sendBytes data_out data_out_len false, Event.receiveBytes false]
        ++ (if (hw.gcn64_receiveBytes data_out data_out_len m.gcn64_workbuf).2 = 0 then []
            else if (hw.gcn64_receiveBytes data_out data_out_len m.gcn64_workbuf).2 = 0xFF
              then [Event.printf Message.rx_error]
            else [Event.delay_us 80]) := by
  have hI : ((m.SREG % 128) / 128 % 2 == 1) = false := by
    have h0 : m.SREG % 128 / 128 = 0 := by omega
    simp [h0]
  simp only [gcn64_transaction, cli, Machine.emit, Machine.interruptsEnabled, hI]
  split_ifs <;> simp

theorem transaction_sreg (hw : Transceiver) (m : Machine) (data_out : List Nat)
    (data_out_len : Int) :
    (gcn64_transaction hw m data_out data_out_len).1.SREG = m.SREG := by
  simp only [gcn64_transaction, cli, Machine.emit]
  split_ifs <;> rfl

/-! ### Controller identification -/

/-- C1: when the identity transaction returns the expected length 3 and leaves
the bytes `b0`, `b1` at the start of the work buffer, `gcn64_detectController`
returns the classification the spec gives for the identifier `b0*256 + b1`,
whatever the third byte and the rest of the buffer are. -/
theorem detectController_classifies (hw : Transceiver) (m : Machine) (b0 b1 : Nat)
    (rest : List Nat) (hb0 : b0 < 256) (hb1 : b1 < 256)
    (hcount : (gcn64_transaction hw m [GC_GETID] 1).2 = 3)
    (hbuf : (gcn64_transaction hw m [GC_GETID] 1).1.gcn64_workbuf = b0 :: b1 :: rest) :
    gcn64_detectController hw m =
      some ((gcn64_transaction hw m [GC_GETID] 1).1, spec_classification (b0 * 256 + b1)) :=
  detect_of_reply hw m b0 b1 rest hb0 hb1 hcount hbuf

/-- The replies `[0x05,0x00,0x00]`, `[0x09,0x00,0x23]`, `[0x08,0x20,0x00]` and
`[0xA8,0x00,0x00]` of length 3 classify as N64, Gamecube, keyboard and
unknown. -/
theorem detectController_classifies_witness :
    (gcn64_detectController (fixedReply (buf3 0x05 0x00 0x00) 3) (machineWith (buf3 0 0 0))
        = some ((gcn64_transaction (fixedReply (buf3 0x05 0x00 0x00) 3)
            (machineWith (buf3 0 0 0)) [GC_GETID] 1).1, spec_classification (0x05 * 256 + 0x00))
      ∧ spec_classification (0x05 * 256 + 0x00) = CONTROLLER_IS_N64)
    ∧ (gcn64_detectController (fixedReply (buf3 0x09 0x00 0x23) 3) (machineWith (buf3 0 0 0))
        = some ((gcn64_transaction (fixedReply (buf3 0x09 0x00 0x23) 3)
            (machineWith (buf3 0 0 0)) [GC_GETID] 1).1, spec_classification (0x09 * 256 + 0x00))
      ∧ spec_classification (0x09 * 256 + 0x00) = CONTROLLER_IS_GC)
    ∧ (gcn64_detectController (fixedReply (buf3 0x08 0x20 0x00) 3) (machineWith (buf3 0 0 0))
        = some ((gcn64_transaction (fixedReply (buf3 0x08 0x20 0x00) 3)
            (machineWith (buf3 0 0 0)) [GC_GETID] 1).1, spec_classification (0x08 * 256 + 0x20))
      ∧ spec_classification (0x08 * 256 + 0x20) = CONTROLLER_IS_GC_KEYBOARD)
    ∧ (gcn64_detectController (fixedReply (buf3 0xA8 0x00 0x00) 3) (machineWith (buf3 0 0 0))
        = some ((gcn64_transaction (fixedReply (buf3 0xA8 0x00 0x00) 3)
            (machineWith (buf3 0 0 0)) [GC_GETID] 1).1, spec_classification (0xA8 * 256 + 0x00))
      ∧ spec_classification (0xA8 * 256 + 0x00) = CONTROLLER_IS_UNKNOWN) :=
  ⟨⟨detectController_classifies _ _ 0x05 0x00 _ (by decide) (by decide) rfl rfl, by decide⟩,
   ⟨detectController_classifies _ _ 0x09 0x00 _ (by decide) (by decide) rfl rfl, by decide⟩,
   ⟨detectController_classifies _ _ 0x08 0x20 _ (by decide) (by decide) rfl rfl, by decide⟩,
   ⟨detectController_classifies _ _ 0xA8 0x00 _ (by decide) (by decide) rfl rfl, by decide⟩⟩

/-- C2: `gcn64_transaction` returns 0 when the receive call reported 0
(timeout) or 0xFF (error), and the reported count itself otherwise; a timeout
and an error give the same returned value. -/
theorem transaction_returns (hw : Transceiver) (m : Machine) (data_out : List Nat)
    (data_out_len : Int) :
    (gcn64_transaction hw m data_out data_out_len).2 =
      if (hw.gcn64_receiveBytes data_out data_out_len m.gcn64_workbuf).2 = 0
          ∨ (hw.gcn64_receiveBytes data_out data_out_len m.gcn64_workbuf).2 = 0xFF
      then 0
      else (hw.gcn64_receiveBytes data_out data_out_len m.gcn64_workbuf).2 :=
  transaction_count hw m data_out data_out_len

/-- C4: when the identity transaction returns count 0, `gcn64_detectController`
returns absent, whatever the work buffer holds; and the transaction returns
count 0 exactly when the receive call reported a timeout (0) or the error code
(0xFF). -/
theorem detectController_absent (hw : Transceiver) (m : Machine)
    (h : (gcn64_transaction hw m [GC_GETID] 1).2 = 0) :
    gcn64_detectController hw m =
        some ((gcn64_transaction hw m [GC_GETID] 1).1, CONTROLLER_IS_ABSENT)
    ∧ ((gcn64_transaction hw m [GC_GETID] 1).2 = 0 ↔
        ((hw.gcn64_receiveBytes [GC_GETID] 1 m.gcn64_workbuf).2 = 0
          ∨ (hw.gcn64_receiveBytes [GC_GETID] 1 m.gcn64_workbuf).2 = 0xFF)) := by
  refine ⟨by simp [gcn64_detectController, h], ?_⟩
  rw [transaction_count]
  split_ifs with hr
  · simp [hr]
  · constructor
    · intro h0; exact absurd (Or.inl h0) hr
    · intro h0; exact absurd h0 hr

/-- A timeout over a stale buffer holding 0x0500, an error over one holding
0x0900 and a timeout over one holding 0x0820 all classify as absent. -/
theorem detectController_absent_witness :
    ((gcn64_transaction (fixedReply (buf3 0x05 0x00 0x00) 0)
          (machineWith (buf3 0x05 0x00 0x00)) [GC_GETID] 1).2 = 0
      ∧ (gcn64_detectController (fixedReply (buf3 0x05 0x00 0x00) 0)
          (machineWith (buf3 0x05 0x00 0x00))).map Prod.snd = some CONTROLLER_IS_ABSENT)
    ∧ ((gcn64_transaction (fixedReply (buf3 0x09 0x00 0x00) 0xFF)
          (machineWith (buf3 0x09 0x00 0x00)) [GC_GETID] 1).2 = 0
      ∧ (gcn64_detectController (fixedReply (buf3 0x09 0x00 0x00) 0xFF)
          (machineWith (buf3 0x09 0x00 0x00))).map Prod.snd = some CONTROLLER_IS_ABSENT)
    ∧ ((gcn64_transaction (fixedReply (buf3 0x08 0x20 0x00) 0)
          (machineWith (buf3 0x08 0x20 0x00)) [GC_GETID] 1).2 = 0
      ∧ (gcn64_detectController (fixedReply (buf3 0x08 0x20 0x00) 0)
          (machineWith (buf3 0x08 0x20 0x00))).map Prod.snd = some CONTROLLER_IS_ABSENT) :=
  ⟨⟨rfl, congrArg (Option.map Prod.snd)
      (detectController_absent (fixedReply (buf3 0x05 0x00 0x00) 0)
        (machineWith (buf3 0x05 0x00 0x00)) rfl).1⟩,
   ⟨rfl, congrArg (Option.map Prod.snd)
      (detectController_absent (fixedReply (buf3 0x09 0x00 0x00) 0xFF)
        (machineWith (buf3 0x09 0x00 0x00)) rfl).1⟩,
   ⟨rfl, congrArg (Option.map Prod.snd)
      (detectController_absent (fixedReply (buf3 0x08 0x20 0x00) 0)
        (machineWith (buf3 0x08 0x20 0x00)) rfl).1⟩⟩

/-- C5: when the identity transaction returns a count `c` with `1 ≤ c ≤ 254`
and `c ≠ 3`, `gcn64_detectController` returns unknown, whatever the work buffer
holds. -/
theorem detectController_wrong_length (hw : Transceiver) (m : Machine) (c : Nat)
    (hc : (gcn64_transaction hw m [GC_GETID] 1).2 = c)
    (h1 : 1 ≤ c) (h254 : c ≤ 254) (h3 : c ≠ 3) :
    gcn64_detectController hw m =
      some ((gcn64_transaction hw m [GC_GETID] 1).1, CONTROLLER_IS_UNKNOWN) := by
  have hmod : c % 256 = c := by omega
  have h0 : c ≠ 0 := by omega
  simp [gcn64_detectController, hc, hmod, h0, h3, GC_GETID_REPLY_LENGTH]

/-- A reply of count 2 with the bytes `[0x05,0x00]` classifies as unknown. -/
theorem detectController_wrong_length_witness :
    (gcn64_transaction (fixedReply (buf3 0x05 0x00 0x00) 2)
        (machineWith (buf3 0 0 0)) [GC_GETID] 1).2 = 2
    ∧ gcn64_detectController (fixedReply (buf3 0x05 0x00 0x00) 2) (machineWith (buf3 0 0 0))
        = some ((gcn64_transaction (fixedReply (buf3 0x05 0x00 0x00) 2)
            (machineWith (buf3 0 0 0)) [GC_GETID] 1).1, CONTROLLER_IS_UNKNOWN) :=
  ⟨rfl, detectController_wrong_length _ _ 2 rfl (by decide) (by decide) (by decide)⟩

/-- C8: the replies 0xA80000 (Wavebird receiver, controller off) and 0xE9A017
(Wavebird, controller on) of the detection comment have second nibble 8 and 9,
yet `gcn64_detectController` classifies them as unknown; so do the listed
identifiers 0xE960 and 0xEBB0. -/
theorem detectController_wavebird_unknown :
    (0xA8 % 16 = 8
      ∧ (gcn64_detectController (fixedReply (buf3 0xA8 0x00 0x00) 3)
          (machineWith (buf3 0 0 0))).map Prod.snd = some CONTROLLER_IS_UNKNOWN)
    ∧ (0xE9 % 16 = 9
      ∧ (gcn64_detectController (fixedReply (buf3 0xE9 0xA0 0x17) 3)
          (machineWith (buf3 0 0 0))).map Prod.snd = some CONTROLLER_IS_UNKNOWN)
    ∧ (gcn64_detectController (fixedReply (buf3 0xE9 0x60 0x00) 3)
          (machineWith (buf3 0 0 0))).map Prod.snd = some CONTROLLER_IS_UNKNOWN
    ∧ (0xEB % 16 = 0xB
      ∧ (gcn64_detectController (fixedReply (buf3 0xEB 0xB0 0x00) 3)
          (machineWith (buf3 0 0 0))).map Prod.snd = some CONTROLLER_IS_UNKNOWN) := by
  decide

/-! ### Transaction layer -/

/-- C3, as stated, fails: after a timeout (receive result 0) and after a line
error (receive result 0xFF) the transaction returns 0 and its trace holds no
80 microsecond delay. -/
theorem transaction_no_delay_on_failure :
    ((gcn64_transaction (fixedReply (buf3 0 0 0) 0) (machineWith (buf3 0 0 0)) [GC_GETID] 1).2 = 0
      ∧ Event.delay_us 80 ∉
        (gcn64_transaction (fixedReply (buf3 0 0 0) 0) (machineWith (buf3 0 0 0))
          [GC_GETID] 1).1.trace)
    ∧ ((gcn64_transaction (fixedReply (buf3 0 0 0) 0xFF) (machineWith (buf3 0 0 0))
          [GC_GETID] 1).2 = 0
      ∧ Event.delay_us 80 ∉
        (gcn64_transaction (fixedReply (buf3 0 0 0) 0xFF) (machineWith (buf3 0 0 0))
          [GC_GETID] 1).1.trace) := by
  decide

/-- C3, amended: the calls made by `gcn64_transaction` are, in order, the send,
the receive, and then: nothing more when the receive reported a timeout (0),
the "rx error" message when it reported 0xFF, and exactly one 80 microsecond
delay, as the last call before returning, for every other result. -/
theorem transaction_delay_on_success (hw : Transceiver) (m : Machine) (data_out : List Nat)
    (data_out_len : Int) :
    (gcn64_transaction hw m data_out data_out_len).1.trace =
      m.trace ++ [Event.sendBytes data_out data_out_len false, Event.receiveBytes false]
        ++ (if (hw.gcn64_receiveBytes data_out data_out_len m.gcn64_workbuf).2 = 0 then []
            else if (hw.gcn64_receiveBytes data_out data_out_len m.gcn64_workbuf).2 = 0xFF
              then [Event.printf Message.rx_error]
            else [Event.delay_us 80]) :=
  transaction_trace hw m data_out data_out_len

/-- C6: after `gcn64_transaction` the status register holds the value it had
before the call, for every initial value and every receive result, and both
the send and the receive are made with the interrupt flag cleared; what
follows them is at most the error message or the delay. -/
theorem transaction_preserves_sreg (hw : Transceiver) (m : Machine) (data_out : List Nat)
    (data_out_len : Int) :
    (gcn64_transaction hw m data_out data_out_len).1.SREG = m.SREG
    ∧ ∃ tail : List Event,
        (gcn64_transaction hw m data_out data_out_len).1.trace =
          m.trace ++ [Event.sendBytes data_out data_out_len false, Event.receiveBytes false]
            ++ tail
        ∧ ∀ e ∈ tail, e = Event.printf Message.rx_error ∨ e = Event.delay_us 80 := by
  refine ⟨transaction_sreg hw m data_out data_out_len, _, transaction_trace hw m data_out
    data_out_len, ?_⟩
  intro e he
  split_ifs at he <;> simp_all

/-! ### Driver selection -/

/-- C10: for the classification `c` returned by `gcn64_detectController`,
`detectPad` stores `c` in `current_pad_type` (changing nothing else of the
machine left by the detection but the messages it prints), returns the N64 driver exactly
when `c` is N64, the Gamecube driver exactly when `c` is Gamecube, and NULL
for absent, unknown and keyboard. -/
theorem detectPad_selects (hw : Transceiver) (m m1 : Machine) (c : ControllerType)
    (h : gcn64_detectController hw m = some (m1, c)) :
    ∃ (p : GamepadPtr) (msgs : List Event),
      detectPad hw m = some ({ m1 with current_pad_type := c, trace := m1.trace ++ msgs }, p)
      ∧ (p = GamepadPtr.n64GetGamepad ↔ c = CONTROLLER_IS_N64)
      ∧ (p = GamepadPtr.gamecubeGetGamepad ↔ c = CONTROLLER_IS_GC)
      ∧ (c = CONTROLLER_IS_ABSENT ∨ c = CONTROLLER_IS_UNKNOWN ∨ c = CONTROLLER_IS_GC_KEYBOARD
          → p = GamepadPtr.NULL) := by
  cases c
  · exact ⟨GamepadPtr.NULL, [], by simp [detectPad, h]⟩
  · exact ⟨GamepadPtr.n64GetGamepad, [Event.printf Message.detected_n64],
      by simp [detectPad, h, Machine.emit]⟩
  · exact ⟨GamepadPtr.gamecubeGetGamepad, [Event.printf Message.detected_gc],
      by simp [detectPad, h, Machine.emit]⟩
  · exact ⟨GamepadPtr.NULL, [], by simp [detectPad, h]⟩
  · exact ⟨GamepadPtr.NULL, [], by simp [detectPad, h]⟩

/-- A keyboard reply: the detection returns the keyboard classification and
`detectPad` stores it and returns NULL. -/
theorem detectPad_selects_witness :
    (gcn64_detectController (fixedReply (buf3 0x08 0x20 0x00) 3) (machineWith (buf3 0 0 0))).map
        Prod.snd = some CONTROLLER_IS_GC_KEYBOARD
    ∧ ∃ (p : GamepadPtr) (msgs : List Event),
        detectPad (fixedReply (buf3 0x08 0x20 0x00) 3) (machineWith (buf3 0 0 0))
          = some ({ (gcn64_transaction (fixedReply (buf3 0x08 0x20 0x00) 3)
                      (machineWith (buf3 0 0 0)) [GC_GETID] 1).1 with
                    current_pad_type := CONTROLLER_IS_GC_KEYBOARD,
                    trace := (gcn64_transaction (fixedReply (buf3 0x08 0x20 0x00) 3)
                      (machineWith (buf3 0 0 0)) [GC_GETID] 1).1.trace ++ msgs }, p)
        ∧ (p = GamepadPtr.n64GetGamepad ↔ CONTROLLER_IS_GC_KEYBOARD = CONTROLLER_IS_N64)
        ∧ (p = GamepadPtr.gamecubeGetGamepad ↔ CONTROLLER_IS_GC_KEYBOARD = CONTROLLER_IS_GC)
        ∧ (CONTROLLER_IS_GC_KEYBOARD = CONTROLLER_IS_ABSENT
            ∨ CONTROLLER_IS_GC_KEYBOARD = CONTROLLER_IS_UNKNOWN
            ∨ CONTROLLER_IS_GC_KEYBOARD = CONTROLLER_IS_GC_KEYBOARD
          → p = GamepadPtr.NULL) :=
  ⟨by decide, detectPad_selects (fixedReply (buf3 0x08 0x20 0x00) 3) (machineWith (buf3 0 0 0))
    _ CONTROLLER_IS_GC_KEYBOARD rfl⟩

/-! ### Buffer accessors -/

theorem getByte_aligned (m : Machine) (j : Nat) (hj : j < GCN64_BUF_SIZE) :
    gcn64_protocol_getByte m (8 * (j : Int)) = m.gcn64_workbuf[j]? := by
  have hdiv : Int.tdiv (8 * (j : Int)) 8 = (j : Int) :=
    Int.mul_tdiv_cancel_left (j : Int) (by decide)
  have hlt : (j : Int) < (GCN64_BUF_SIZE : Int) := by exact_mod_cast hj
  simp [gcn64_protocol_getByte, hdiv, hlt]

theorem getBytes_aligned (m : Machine) (k N : Nat) (dstbuf : List Nat)
    (hbuf : m.gcn64_workbuf.length = GCN64_BUF_SIZE) (hkN : k + N ≤ GCN64_BUF_SIZE)
    (hdst : N ≤ dstbuf.length) :
    gcn64_protocol_getBytes m (8 * (k : Int)) (N : Int) dstbuf =
      some (m, (m.gcn64_workbuf.drop k).take N ++ dstbuf.drop N) := by
  have hdiv : Int.tdiv (8 * (k : Int)) 8 = (k : Int) :=
    Int.mul_tdiv_cancel_left (k : Int) (by decide)
  have h1 : (k : Int) + (N : Int) ≤ (GCN64_BUF_SIZE : Int) := by exact_mod_cast hkN
  have h2 : k + N ≤ m.gcn64_workbuf.length := by omega
  simp [gcn64_protocol_getBytes, hdiv, h1, h2, hdst]

/-- C7: for `k + N ≤ 40`, `gcn64_protocol_getBytes(8*k, N, dst)` puts into the
first `N` elements of `dst` the sequence `gcn64_protocol_getByte(8*k)`, ...,
`gcn64_protocol_getByte(8*(k+N-1))`, each of them the buffer byte at index
`k+i`, writes nothing else to `dst`, and leaves the machine, work buffer
included, as it was. -/
theorem getBytes_is_getByte_run (m : Machine) (k N : Nat) (dstbuf : List Nat)
    (hbuf : m.gcn64_workbuf.length = GCN64_BUF_SIZE) (hkN : k + N ≤ GCN64_BUF_SIZE)
    (hdst : N ≤ dstbuf.length) :
    ∃ out : List Nat,
      gcn64_protocol_getBytes m (8 * (k : Int)) (N : Int) dstbuf = some (m, out)
      ∧ out.length = dstbuf.length
      ∧ (out.take N).map some
          = (List.range N).map (fun i => gcn64_protocol_getByte m (8 * ((k + i : Nat) : Int)))
      ∧ (∀ i, i < N → ∃ b, m.gcn64_workbuf[k + i]? = some b
          ∧ gcn64_protocol_getByte m (8 * ((k + i : Nat) : Int)) = some b)
      ∧ out.drop N = dstbuf.drop N := by
  have hlen : ((m.gcn64_workbuf.drop k).take N).length = N := by
    simp only [List.length_take, List.length_drop]; omega
  refine ⟨_, getBytes_aligned m k N dstbuf hbuf hkN hdst, ?_, ?_, ?_, ?_⟩
  · simp only [List.length_append, hlen, List.length_drop]; omega
  · rw [List.take_left' hlen]
    apply List.ext_getElem?
    intro i
    simp only [List.getElem?_map, List.getElem?_take, List.getElem?_drop]
    by_cases hi : i < N
    · rw [List.getElem?_range hi]
      simp only [hi, if_true, Option.map_some']
      rw [getByte_aligned m (k + i) (by omega)]
      have hki : k + i < m.gcn64_workbuf.length := by omega
      simp [List.getElem?_eq_getElem hki]
    · have hr : (List.range N)[i]? = none := by
        apply List.getElem?_eq_none; simp; omega
      simp [hi, hr]
  · intro i hi
    have hki : k + i < m.gcn64_workbuf.length := by omega
    refine ⟨m.gcn64_workbuf[k + i], List.getElem?_eq_getElem hki, ?_⟩
    rw [getByte_aligned m (k + i) (by omega)]
    exact List.getElem?_eq_getElem hki
  · exact List.drop_left' hlen

/-- A getBytes call at bit offset 8 for 2 bytes over a buffer starting
`0x11, 0x22, 0x33` writes `0x22, 0x33` and keeps the third element of the
destination. -/
theorem getBytes_is_getByte_run_witness :
    gcn64_protocol_getBytes (machineWith (buf3 0x11 0x22 0x33)) 8 2 [9, 9, 9]
      = some (machineWith (buf3 0x11 0x22 0x33), [0x22, 0x33, 9])
    ∧ ∃ out : List Nat,
      gcn64_protocol_getBytes (machineWith (buf3 0x11 0x22 0x33)) (8 * ((1 : Nat) : Int))
          ((2 : Nat) : Int) [9, 9, 9] = some (machineWith (buf3 0x11 0x22 0x33), out)
      ∧ out.length = [9, 9, 9].length
      ∧ (out.take 2).map some
          = (List.range 2).map (fun i =>
              gcn64_protocol_getByte (machineWith (buf3 0x11 0x22 0x33))
                (8 * ((1 + i : Nat) : Int)))
      ∧ (∀ i, i < 2 → ∃ b, (machineWith (buf3 0x11 0x22 0x33)).gcn64_workbuf[1 + i]? = some b
          ∧ gcn64_protocol_getByte (machineWith (buf3 0x11 0x22 0x33))
              (8 * ((1 + i : Nat) : Int)) = some b)
      ∧ out.drop 2 = [9, 9, 9].drop 2 :=
  ⟨by decide, getBytes_is_getByte_run (machineWith (buf3 0x11 0x22 0x33)) 1 2 [9, 9, 9]
    (by decide) (by decide) (by decide)⟩

/-! ### Product string -/

theorem take_set_self (ps : List Nat) (k c : Nat) : (ps.set k c).take k = ps.take k := by
  apply List.ext_getElem?
  intro i
  simp only [List.getElem?_take, List.getElem?_set]
  split_ifs <;> first | rfl | omega

theorem set_eq_take_cons_drop (ps : List Nat) (k c : Nat) (h : k < ps.length) :
    ps.set k c = ps.take k ++ c :: ps.drop (k + 1) := by
  rw [List.set_eq_take_append_cons_drop, if_pos h]

theorem changeProductString_loop_spec (maxchars : Nat) (chars rest : List Nat)
    (hchars : ∀ c ∈ chars, 0 < c ∧ c < 256) :
    ∀ (fuel k : Nat) (ps : List Nat), fuel + 1 + k = maxchars → k ≤ chars.length →
      ps.length = maxchars →
      changeProductString_loop maxchars (chars ++ 0 :: rest) (fuel + 1) k k k ps
        = some (ps.take k ++ (chars.drop k).take fuel
            ++ 0 :: ps.drop (min chars.length (maxchars - 1) + 1)) := by
  intro fuel
  induction fuel with
  | zero =>
    intro k ps hk hkL hps
    have hmin : min chars.length (maxchars - 1) = k := by omega
    have hkp : k < ps.length := by omega
    have hn : k + 1 = maxchars := by omega
    simp only [changeProductString_loop, hn, if_true, storeAt, hkp, hmin, List.take_zero,
      List.append_nil]
    rw [set_eq_take_cons_drop ps k 0 hkp, hn]
  | succ fuel ih =>
    intro k ps hk hkL hps
    have hkp : k < ps.length := by omega
    have hn : k + 1 ≠ maxchars := by omega
    rcases Nat.lt_or_ge k chars.length with hlt | hge
    · have hread : (chars ++ 0 :: rest)[k]? = some chars[k] := by
        rw [List.getElem?_append_left hlt]
        exact List.getElem?_eq_getElem hlt
      obtain ⟨hpos, hbyte⟩ := hchars chars[k] (List.getElem_mem hlt)
      have hmod : chars[k] % 256 = chars[k] := by omega
      have hne : chars[k] ≠ 0 := by omega
      have hrec := ih (k + 1) (ps.set k chars[k]) (by omega) (by omega) (by simpa using hps)
      have htake : (ps.set k chars[k]).take (k + 1) = ps.take k ++ [chars[k]] := by
        rw [List.take_add_one, take_set_self]
        simp [List.getElem?_set, hkp]
      have hdrop : (ps.set k chars[k]).drop (min chars.length (maxchars - 1) + 1)
          = ps.drop (min chars.length (maxchars - 1) + 1) := by
        have : k < min chars.length (maxchars - 1) + 1 := by omega
        simp [List.drop_set, this]
      have hrun : (chars.drop k).take (fuel + 1)
          = chars[k] :: (chars.drop (k + 1)).take fuel := by
        rw [List.drop_eq_getElem_cons hlt, List.take_succ_cons]
      rw [changeProductString_loop]
      simp only [hn, if_false, hread, hmod, storeAt, hkp, if_true, hne, ne_eq, not_false_eq_true]
      rw [hrec, htake, hdrop, hrun]
      simp
    · have hk' : k = chars.length := by omega
      have hread : (chars ++ 0 :: rest)[k]? = some 0 := by
        rw [hk', List.getElem?_append_right (le_refl _)]; simp
      have hmin : min chars.length (maxchars - 1) = k := by omega
      have hnil : chars.drop k = [] := by
        apply List.drop_eq_nil_of_le; omega
      rw [changeProductString_loop]
      simp only [hn, if_false, hread, storeAt, hkp, if_true, hmin, hnil, List.take_nil,
        List.append_nil]
      simp [set_eq_take_cons_drop ps k 0 hkp]

/-- C9: for a source string of `L` nonzero bytes followed by NUL and a
`product_string` of `M ≥ 1` elements, `usbstrings_changeProductString_P`
returns, writing inside the array only: the first `min L (M-1)` source bytes,
then a 0 at index `min L (M-1)`, then the old elements untouched.  A source of
at most `M-1` characters is copied whole, a longer one is cut to `M-1`. -/
theorem changeProductString_terminated (maxchars : Nat) (chars rest product_string : List Nat)
    (hM : 1 ≤ maxchars) (hchars : ∀ c ∈ chars, 0 < c ∧ c < 256)
    (hlen : product_string.length = maxchars) :
    ∃ out : List Nat,
      usbstrings_changeProductString_P maxchars (chars ++ 0 :: rest) product_string = some out
      ∧ out.length = maxchars
      ∧ out.take (min chars.length (maxchars - 1)) = chars.take (min chars.length (maxchars - 1))
      ∧ out[min chars.length (maxchars - 1)]? = some 0
      ∧ out.drop (min chars.length (maxchars - 1) + 1)
          = product_string.drop (min chars.length (maxchars - 1) + 1)
      ∧ (chars.length ≤ maxchars - 1 → out.take chars.length = chars) := by
  have hspec := changeProductString_loop_spec maxchars chars rest hchars (maxchars - 1) 0
    product_string (by omega) (by omega) hlen
  have hfuel : maxchars - 1 + 1 = maxchars := by omega
  rw [hfuel] at hspec
  simp only [List.take_zero, List.nil_append, List.drop_zero] at hspec
  have htk : chars.take (maxchars - 1) = chars.take (min chars.length (maxchars - 1)) := by
    rcases Nat.le_total chars.length (maxchars - 1) with h | h
    · rw [Nat.min_eq_left h, List.take_of_length_le h, List.take_of_length_le (le_refl _)]
    · rw [Nat.min_eq_right h]
  have hl : (chars.take (min chars.length (maxchars - 1))).length
      = min chars.length (maxchars - 1) := by
    rw [List.length_take]; omega
  rw [htk] at hspec
  refine ⟨_, hspec, ?_, ?_, ?_, ?_, ?_⟩
  · simp only [List.length_append, hl, List.length_cons, List.length_drop]; omega
  · exact List.take_left' hl
  · rw [List.getElem?_append_right (by omega), hl]; simp
  · rw [List.drop_append_eq_append_drop, hl]
    rw [List.drop_of_length_le (by omega)]
    simp
  · intro h
    rw [Nat.min_eq_left h, List.take_of_length_le (le_refl _)]
    exact List.take_left' rfl

/-- With 4 elements, the 5-character source "ABCDE" is cut to "ABC" and
terminated at index 3, and the 2-character source "AB" is copied whole and
terminated at index 2, leaving the last element alone. -/
theorem changeProductString_terminated_witness :
    usbstrings_changeProductString_P 4 [65, 66, 67, 68, 69, 0] [9, 9, 9, 9] = some [65, 66, 67, 0]
    ∧ usbstrings_changeProductString_P 4 [65, 66, 0] [9, 9, 9, 9] = some [65, 66, 0, 9]
    ∧ ∃ out : List Nat,
      usbstrings_changeProductString_P 4 ([65, 66, 67, 68, 69] ++ 0 :: []) [9, 9, 9, 9] = some out
      ∧ out.length = 4
      ∧ out.take (min [65, 66, 67, 68, 69].length (4 - 1))
          = [65, 66, 67, 68, 69].take (min [65, 66, 67, 68, 69].length (4 - 1))
      ∧ out[min [65, 66, 67, 68, 69].length (4 - 1)]? = some 0
      ∧ out.drop (min [65, 66, 67, 68, 69].length (4 - 1) + 1)
          = [9, 9, 9, 9].drop (min [65, 66, 67, 68, 69].length (4 - 1) + 1)
      ∧ ([65, 66, 67, 68, 69].length ≤ 4 - 1 → out.take [65, 66, 67, 68, 69].length
          = [65, 66, 67, 68, 69]) :=
  ⟨by decide, by decide,
    changeProductString_terminated 4 [65, 66, 67, 68, 69] [] [9, 9, 9, 9] (by decide)
      (by decide) (by decide)⟩

end GcN64
